import Mathlib

/-!
Shallow embedding of the `mini-timer` library (src/src/index.ts).

The library exposes a pure formatter `formatTime` and a timer factory
`timer(from, inc, to?)` whose closure holds mutable state
`{ elapsed, running }`, a scheduler registration handle `id`, and an
event emitter.  We embed the state as an explicit structure (including a
boolean for whether a scheduler registration is live), and each
operation as a function from state to state paired with the list of
events it emits.  `start` can throw, so it returns `Except String`.
JavaScript numbers are modelled as `Int` (the library works on integer
millisecond values).
-/

namespace MiniTimer

/-- The lifecycle events a timer can emit (`TimerEvent` in the source). -/
inductive Ev where
  | start
  | resume
  | pause
  | reset
  | finish
  | update
deriving DecidableEq, Repr

/-- `StartEvent` in the source: events passed to the internal `start`. -/
inductive StartEv where
  | start
  | resume
deriving DecidableEq, Repr

/-- `StopEvent` in the source: events accepted by `stop`. -/
inductive StopEv where
  | reset
  | finish
  | pause
deriving DecidableEq, Repr

def StartEv.toEv : StartEv → Ev
  | .start => Ev.start
  | .resume => Ev.resume

def StopEv.toEv : StopEv → Ev
  | .reset => Ev.reset
  | .finish => Ev.finish
  | .pause => Ev.pause

/-- An emitted event: name paired with its numeric payload. -/
abbrev Event := Ev × Int

/-- The configuration captured by the `timer(from, inc, to?)` closure.
`from` is a Lean keyword, hence the field name `from'`. -/
structure Config where
  from' : Int
  inc : Int
  to' : Option Int
deriving DecidableEq, Repr

/-- The mutable closure state: `state.elapsed`, `state.running`, and
whether the interval handle `id` is set (a live scheduler registration). -/
structure TimerState where
  elapsed : Int
  running : Bool
  sched : Bool
deriving DecidableEq, Repr

/-- `Math.sign` restricted to integers (`const sign = Math.sign(inc)`). -/
def sign (i : Int) : Int :=
  if 0 < i then 1 else if i < 0 then -1 else 0

/-- The state created by `timer(from, inc, to?)`:
`{ elapsed: from, running: false }`, no interval registered. -/
def initState (cfg : Config) : TimerState :=
  ⟨cfg.from', false, false⟩

/-- `stop(event = 'finish')`: if running (or the event is `'reset'`),
set `running = false`, emit the event with the current `elapsed`, and
clear the interval handle. -/
def stop (s : TimerState) (ev : StopEv) : TimerState × List Event :=
  if s.running = true ∨ ev = StopEv.reset then
    (⟨s.elapsed, false, false⟩, [(ev.toEv, s.elapsed)])
  else
    (s, [])

/-- The clamp in the tick function: `if (elapsed < 0) elapsed = 0`. -/
def clamp0 (x : Int) : Int :=
  if x < 0 then 0 else x

/-- The tick function `update()`: when running, advance `elapsed` by
`inc`, clamp below at `0`, and either finish (boundary reached in the
direction of `sign inc`) or emit `update`. -/
def update (cfg : Config) (s : TimerState) : TimerState × List Event :=
  if s.running then
    match cfg.to' with
    | some t =>
        if clamp0 (s.elapsed + cfg.inc) * sign cfg.inc ≥ t * sign cfg.inc then
          stop ⟨t, s.running, s.sched⟩ StopEv.finish
        else
          (⟨clamp0 (s.elapsed + cfg.inc), s.running, s.sched⟩,
            [(Ev.update, clamp0 (s.elapsed + cfg.inc))])
    | none =>
        (⟨clamp0 (s.elapsed + cfg.inc), s.running, s.sched⟩,
          [(Ev.update, clamp0 (s.elapsed + cfg.inc))])
  else
    (s, [])

/-- The error message `Invalid timer range [from, to] on inc inc.` -/
def rangeMsg (cfg : Config) (t : Int) : String :=
  "Invalid timer range [" ++ toString cfg.from' ++ ", " ++ toString t ++
    "] on inc " ++ toString cfg.inc ++ "."

/-- The non-throwing part of `start`: if not already running, set
`running = true`, emit the start-class event with the current `elapsed`,
and register the interval. -/
def startRun (s : TimerState) (ev : StartEv) : TimerState × List Event :=
  if s.running then (s, [])
  else (⟨s.elapsed, true, true⟩, [(ev.toEv, s.elapsed)])

/-- `start(event = 'start')`: throw on an invalid range (the check is
skipped when `to` is `undefined` or falsy, i.e. `0`), else run. -/
def start (cfg : Config) (s : TimerState) (ev : StartEv) :
    Except String (TimerState × List Event) :=
  match cfg.to' with
  | some t =>
      if t ≠ 0 ∧ cfg.from' * sign cfg.inc > t * sign cfg.inc then
        Except.error (rangeMsg cfg t)
      else
        Except.ok (startRun s ev)
  | none => Except.ok (startRun s ev)

/-- `resume()` = `start('resume')`. -/
def resume (cfg : Config) (s : TimerState) :
    Except String (TimerState × List Event) :=
  start cfg s StartEv.resume

/-- `pause()` = `stop('pause')`. -/
def pause (s : TimerState) : TimerState × List Event :=
  stop s StopEv.pause

/-- `reset()`: set `elapsed = 0`, then `stop('reset')`. -/
def reset (s : TimerState) : TimerState × List Event :=
  stop ⟨0, s.running, s.sched⟩ StopEv.reset

/-- `toggle()`: `stop()` if running else `start()`. -/
def toggle (cfg : Config) (s : TimerState) :
    Except String (TimerState × List Event) :=
  if s.running then Except.ok (stop s StopEv.finish)
  else start cfg s StartEv.start

/-- One public operation on a timer (a tick is the scheduler invoking
`update`, which is also public). -/
inductive Op where
  | opStart
  | opResume
  | opPause
  | opStop (e : StopEv)
  | opReset
  | opToggle
  | opTick
deriving DecidableEq, Repr

/-- Apply one public operation.  A thrown `InvalidRangeError` leaves the
state unchanged and emits nothing (the throw happens before any
mutation in the source). -/
def step (cfg : Config) (s : TimerState) : Op → TimerState × List Event
  | .opStart => ((start cfg s StartEv.start).toOption).getD (s, [])
  | .opResume => ((resume cfg s).toOption).getD (s, [])
  | .opPause => pause s
  | .opStop e => stop s e
  | .opReset => reset s
  | .opToggle => ((toggle cfg s).toOption).getD (s, [])
  | .opTick => update cfg s

/-- States reachable from construction by any sequence of public
operations and ticks. -/
inductive Reachable (cfg : Config) : TimerState → Prop where
  | init : Reachable cfg (initState cfg)
  | next (s : TimerState) (op : Op) :
      Reachable cfg s → Reachable cfg (step cfg s op).1

/-- States reachable without ever calling `reset()`. -/
inductive ReachableNR (cfg : Config) : TimerState → Prop where
  | init : ReachableNR cfg (initState cfg)
  | next (s : TimerState) (op : Op) :
      op ≠ Op.opReset → ReachableNR cfg s → ReachableNR cfg (step cfg s op).1

/-- Iterate the tick function `n` times, collecting all emitted events. -/
def ticks (cfg : Config) : Nat → TimerState → TimerState × List Event
  | 0, s => (s, [])
  | n + 1, s =>
      let r1 := update cfg s
      let r2 := ticks cfg n r1.1
      (r2.1, r1.2 ++ r2.2)

/-! ### The time formatter -/

def MSToHours : Nat := 1000 * 60 * 60

def MSToMin : Nat := 1000 * 60

/-- `pad`: decimal rendering left-padded with `'0'` to the given width
(`padStart(size, '0')` — never truncates). -/
def pad (num : Nat) (size : Nat) : String :=
  String.mk (List.replicate (size - (toString num).length) '0') ++ toString num

/-- `formatTime(totalTime)`: `HH:MM:SS` when hours are present,
otherwise `MM:SS`.  The `| 0` truncations of the source are ordinary
floor division on non-negative integers. -/
def formatTime (totalTime : Nat) : String :=
  let hours := totalTime / MSToHours
  let rem := totalTime % MSToHours
  let minutes := rem / MSToMin
  let str := if hours > 0 then pad hours 2 ++ ":" else ""
  str ++ pad minutes 2 ++ ":" ++ pad (rem % MSToMin / 1000) 2

/-! ### Helper lemmas -/

lemma sign_of_pos {i : Int} (h : 0 < i) : sign i = 1 := by
  simp [sign, h]

lemma sign_of_neg {i : Int} (h : i < 0) : sign i = -1 := by
  have h' : ¬ 0 < i := by omega
  simp [sign, h, h']

lemma sign_of_zero {i : Int} (h : i = 0) : sign i = 0 := by
  simp [sign, h]

lemma clamp0_nonneg (x : Int) : 0 ≤ clamp0 x := by
  unfold clamp0; split <;> omega

lemma startD_cases (cfg : Config) (s : TimerState) (ev : StartEv) :
    ((start cfg s ev).toOption).getD (s, []) = (s, []) ∨
    ((start cfg s ev).toOption).getD (s, []) =
      (⟨s.elapsed, true, true⟩, [(ev.toEv, s.elapsed)]) := by
  have hrun : startRun s ev = (s, []) ∨
      startRun s ev = (⟨s.elapsed, true, true⟩, [(ev.toEv, s.elapsed)]) := by
    unfold startRun
    split
    · exact Or.inl rfl
    · exact Or.inr rfl
  rcases h : cfg.to' with _ | t
  · simpa [start, h, Except.toOption] using hrun
  · by_cases hc : t ≠ 0 ∧ cfg.from' * sign cfg.inc > t * sign cfg.inc
    · simp [start, h, if_pos hc, Except.toOption]
    · simpa [start, h, if_neg hc, Except.toOption] using hrun

lemma stop_cases (s : TimerState) (ev : StopEv) :
    stop s ev = (s, []) ∨
    stop s ev = (⟨s.elapsed, false, false⟩, [(ev.toEv, s.elapsed)]) := by
  unfold stop
  split
  · exact Or.inr rfl
  · exact Or.inl rfl

lemma toggleD_cases (cfg : Config) (s : TimerState) :
    ((toggle cfg s).toOption).getD (s, []) =
      ((start cfg s StartEv.start).toOption).getD (s, []) ∨
    ((toggle cfg s).toOption).getD (s, []) = stop s StopEv.finish := by
  unfold toggle
  split
  · exact Or.inr rfl
  · exact Or.inl rfl

lemma update_cases (cfg : Config) (s : TimerState) :
    update cfg s = (s, []) ∨
    (∃ t, cfg.to' = some t ∧
      clamp0 (s.elapsed + cfg.inc) * sign cfg.inc ≥ t * sign cfg.inc ∧
      update cfg s = (⟨t, false, false⟩, [(Ev.finish, t)])) ∨
    ((cfg.to' = none ∨ ∃ t, cfg.to' = some t ∧
        ¬ clamp0 (s.elapsed + cfg.inc) * sign cfg.inc ≥ t * sign cfg.inc) ∧
      update cfg s = (⟨clamp0 (s.elapsed + cfg.inc), s.running, s.sched⟩,
        [(Ev.update, clamp0 (s.elapsed + cfg.inc))])) := by
  unfold update
  split
  case isTrue hrun =>
    split
    · rename_i t heq
      split
      · rename_i hge
        refine Or.inr (Or.inl ⟨t, heq, hge, ?_⟩)
        simp [stop, hrun, StopEv.toEv]
      · rename_i hge
        exact Or.inr (Or.inr ⟨Or.inr ⟨t, heq, hge⟩, rfl⟩)
    · rename_i heq
      exact Or.inr (Or.inr ⟨Or.inl heq, rfl⟩)
  case isFalse hrun => exact Or.inl rfl

lemma reset_eq (s : TimerState) :
    reset s = (⟨0, false, false⟩, [(Ev.reset, 0)]) := by
  simp [reset, stop, StopEv.toEv]

lemma update_nonneg (cfg : Config) (hto : ∀ t : Int, cfg.to' = some t → 0 ≤ t)
    (s : TimerState) (hs : 0 ≤ s.elapsed) :
    0 ≤ (update cfg s).1.elapsed ∧ ∀ p ∈ (update cfg s).2, 0 ≤ p.2 := by
  rcases update_cases cfg s with h | ⟨t, ht, _, h⟩ | ⟨_, h⟩ <;> rw [h]
  · exact ⟨hs, by simp⟩
  · exact ⟨hto t ht, by simpa using hto t ht⟩
  · exact ⟨clamp0_nonneg _, by simpa using clamp0_nonneg _⟩

lemma step_nonneg (cfg : Config) (hto : ∀ t : Int, cfg.to' = some t → 0 ≤ t)
    (s : TimerState) (hs : 0 ≤ s.elapsed) (op : Op) :
    0 ≤ (step cfg s op).1.elapsed ∧ ∀ p ∈ (step cfg s op).2, 0 ≤ p.2 := by
  cases op with
  | opStart =>
      rcases startD_cases cfg s StartEv.start with h | h <;> simp only [step, h]
      · exact ⟨hs, by simp⟩
      · exact ⟨hs, by simpa using hs⟩
  | opResume =>
      rcases startD_cases cfg s StartEv.resume with h | h <;>
        simp only [step, resume, h]
      · exact ⟨hs, by simp⟩
      · exact ⟨hs, by simpa using hs⟩
  | opPause =>
      rcases stop_cases s StopEv.pause with h | h <;> simp only [step, pause, h]
      · exact ⟨hs, by simp⟩
      · exact ⟨hs, by simpa using hs⟩
  | opStop e =>
      rcases stop_cases s e with h | h <;> simp only [step, h]
      · exact ⟨hs, by simp⟩
      · exact ⟨hs, by simpa using hs⟩
  | opReset =>
      simp only [step, reset_eq]
      exact ⟨le_refl 0, by simp⟩
  | opToggle =>
      rcases toggleD_cases cfg s with h | h
      · rcases startD_cases cfg s StartEv.start with h2 | h2 <;>
          simp only [step, h, h2]
        · exact ⟨hs, by simp⟩
        · exact ⟨hs, by simpa using hs⟩
      · rcases stop_cases s StopEv.finish with h2 | h2 <;>
          simp only [step, h, h2]
        · exact ⟨hs, by simp⟩
        · exact ⟨hs, by simpa using hs⟩
  | opTick => exact update_nonneg cfg hto s hs

lemma clamp_bound (f t e i : Int) (hf : 0 ≤ f)
    (h1 : min f t ≤ e) (h2 : e ≤ max f t)
    (hlt : ¬ clamp0 (e + i) * sign i ≥ t * sign i) :
    min f t ≤ clamp0 (e + i) ∧ clamp0 (e + i) ≤ max f t := by
  unfold clamp0 at hlt ⊢
  rcases lt_trichotomy i 0 with hneg | hz | hpos
  · rw [sign_of_neg hneg] at hlt
    rcases le_total f t with hft | htf
    · rw [min_eq_left hft] at h1 ⊢
      rw [max_eq_right hft] at h2 ⊢
      split at hlt <;> split <;> omega
    · rw [min_eq_right htf] at h1 ⊢
      rw [max_eq_left htf] at h2 ⊢
      split at hlt <;> split <;> omega
  · subst hz
    rw [sign_of_zero rfl] at hlt
    simp at hlt
  · rw [sign_of_pos hpos] at hlt
    rcases le_total f t with hft | htf
    · rw [min_eq_left hft] at h1 ⊢
      rw [max_eq_right hft] at h2 ⊢
      split at hlt <;> split <;> omega
    · rw [min_eq_right htf] at h1 ⊢
      rw [max_eq_left htf] at h2 ⊢
      split at hlt <;> split <;> omega

lemma update_interval (cfg : Config) (t : Int) (hf : 0 ≤ cfg.from')
    (ht : cfg.to' = some t) (s : TimerState)
    (h1 : min cfg.from' t ≤ s.elapsed) (h2 : s.elapsed ≤ max cfg.from' t) :
    min cfg.from' t ≤ (update cfg s).1.elapsed ∧
      (update cfg s).1.elapsed ≤ max cfg.from' t := by
  rcases update_cases cfg s with h | ⟨t', ht', _, h⟩ | ⟨hside, h⟩ <;> rw [h]
  · exact ⟨h1, h2⟩
  · rw [ht] at ht'
    injection ht' with ht''
    subst ht''
    exact ⟨min_le_right _ _, le_max_right _ _⟩
  · rcases hside with hnone | ⟨t', ht', hlt⟩
    · rw [ht] at hnone
      exact absurd hnone (by simp)
    · rw [ht] at ht'
      injection ht' with ht''
      subst ht''
      exact clamp_bound cfg.from' t s.elapsed cfg.inc hf h1 h2 hlt

lemma step_interval (cfg : Config) (t : Int) (hf : 0 ≤ cfg.from')
    (ht : cfg.to' = some t) (s : TimerState)
    (h1 : min cfg.from' t ≤ s.elapsed) (h2 : s.elapsed ≤ max cfg.from' t)
    (op : Op) (hop : op ≠ Op.opReset) :
    min cfg.from' t ≤ (step cfg s op).1.elapsed ∧
      (step cfg s op).1.elapsed ≤ max cfg.from' t := by
  cases op with
  | opReset => exact absurd rfl hop
  | opTick => exact update_interval cfg t hf ht s h1 h2
  | opStart =>
      rcases startD_cases cfg s StartEv.start with h | h <;> simp only [step, h] <;>
        exact ⟨h1, h2⟩
  | opResume =>
      rcases startD_cases cfg s StartEv.resume with h | h <;>
        simp only [step, resume, h] <;> exact ⟨h1, h2⟩
  | opPause =>
      rcases stop_cases s StopEv.pause with h | h <;> simp only [step, pause, h] <;>
        exact ⟨h1, h2⟩
  | opStop e =>
      rcases stop_cases s e with h | h <;> simp only [step, h] <;> exact ⟨h1, h2⟩
  | opToggle =>
      rcases toggleD_cases cfg s with h | h
      · rcases startD_cases cfg s StartEv.start with h2' | h2' <;>
          simp only [step, h, h2'] <;> exact ⟨h1, h2⟩
      · rcases stop_cases s StopEv.finish with h2' | h2' <;>
          simp only [step, h, h2'] <;> exact ⟨h1, h2⟩

/-! ### Theorems for the claims -/

/-- C5: `reset()` always sets `elapsed` to 0, sets `running` to false,
and always emits a single `reset` event with payload 0, regardless of
whether the timer was Running or Stopped before the call. -/
theorem reset_spec (s : TimerState) :
    reset s = (⟨0, false, false⟩, [(Ev.reset, 0)]) := by
  simp [reset, stop, StopEv.toEv]

/-- C6: `stop(event)` while Stopped is a no-op (no state change, no
event) for every event other than `'reset'`; with `event = 'reset'` it
proceeds even from Stopped, emitting `reset` and setting `running` to
false; while Running it sets `running` to false, emits the given event
with the current `elapsed`, and cancels the scheduler registration. -/
theorem stop_spec (s : TimerState) :
    (∀ ev : StopEv, s.running = false → ev ≠ StopEv.reset → stop s ev = (s, [])) ∧
    (s.running = false →
      stop s StopEv.reset = (⟨s.elapsed, false, false⟩, [(Ev.reset, s.elapsed)])) ∧
    (∀ ev : StopEv, s.running = true →
      stop s ev = (⟨s.elapsed, false, false⟩, [(ev.toEv, s.elapsed)])) := by
  refine ⟨?_, ?_, ?_⟩
  · intro ev h hne
    simp [stop, h, hne]
  · intro h
    simp [stop, StopEv.toEv]
  · intro ev h
    simp [stop, h]

/-- Witness for C6 at a concrete Stopped state and a non-reset event. -/
theorem stop_spec_witness :
    stop ⟨7, false, true⟩ StopEv.finish = (⟨7, false, true⟩, []) :=
  (stop_spec ⟨7, false, true⟩).1 StopEv.finish rfl (by decide)

/-- C7: `formatTime` computes hours/minutes/seconds by floor division
from milliseconds, rendering `HH:MM:SS` when hours are positive and
`MM:SS` otherwise, each field zero-padded to width 2 and never
truncated; with the listed concrete values. -/
theorem formatTime_spec :
    (∀ n : Nat, formatTime n =
      (if n / 3600000 > 0 then pad (n / 3600000) 2 ++ ":" else "") ++
        pad (n % 3600000 / 60000) 2 ++ ":" ++ pad (n % 3600000 % 60000 / 1000) 2) ∧
    formatTime 0 = "00:00" ∧ formatTime 60000 = "01:00" ∧
    formatTime 3600000 = "01:00:00" ∧ formatTime 3665000 = "01:01:05" ∧
    formatTime 86400000 = "24:00:00" :=
  ⟨fun _ => rfl, rfl, rfl, rfl, rfl, rfl⟩

/-- C1: one tick of a Running timer computes the clamped next value,
and either (boundary reached in the direction of `sign inc`) clamps
`elapsed` to exactly `to`, stops, cancels the scheduler and emits a
single `finish` with payload `to`, or else stores the clamped value and
emits a single `update` with it. -/
theorem update_tick_spec (cfg : Config) (s : TimerState) (hrun : s.running = true) :
    (∀ t : Int, cfg.to' = some t →
      clamp0 (s.elapsed + cfg.inc) * sign cfg.inc ≥ t * sign cfg.inc →
      update cfg s = (⟨t, false, false⟩, [(Ev.finish, t)])) ∧
    (∀ t : Int, cfg.to' = some t →
      ¬ clamp0 (s.elapsed + cfg.inc) * sign cfg.inc ≥ t * sign cfg.inc →
      update cfg s = (⟨clamp0 (s.elapsed + cfg.inc), true, s.sched⟩,
        [(Ev.update, clamp0 (s.elapsed + cfg.inc))])) ∧
    (cfg.to' = none →
      update cfg s = (⟨clamp0 (s.elapsed + cfg.inc), true, s.sched⟩,
        [(Ev.update, clamp0 (s.elapsed + cfg.inc))])) := by
  refine ⟨?_, ?_, ?_⟩
  · intro t ht hge
    simp [update, hrun, ht, hge, stop, StopEv.toEv]
  · intro t ht hge
    simp [update, hrun, ht, hge]
  · intro h
    simp [update, hrun, h]

/-- Witness for C1: a countdown tick that reaches its target `0`. -/
theorem update_tick_spec_witness :
    update ⟨500, -100, some 0⟩ ⟨100, true, true⟩ = (⟨0, false, false⟩, [(Ev.finish, 0)]) :=
  (update_tick_spec ⟨500, -100, some 0⟩ ⟨100, true, true⟩ rfl).1 0 rfl (by decide)

/-- C2: `start`/`resume` raise the invalid-range error exactly when `to`
is defined and truthy and `from * sign > to * sign`; the message carries
`from`, `to` and `inc`; on failure no state mutation, event, or
scheduler registration happens; with `to = 0` validation is skipped and
`start` never raises. -/
theorem start_invalid_range_spec (cfg : Config) (s : TimerState) (ev : StartEv) :
    ((∃ msg, start cfg s ev = Except.error msg) ↔
      ∃ t : Int, cfg.to' = some t ∧ t ≠ 0 ∧
        cfg.from' * sign cfg.inc > t * sign cfg.inc) ∧
    (∀ t : Int, cfg.to' = some t → t ≠ 0 →
      cfg.from' * sign cfg.inc > t * sign cfg.inc →
      start cfg s ev = Except.error (rangeMsg cfg t)) ∧
    (cfg.to' = some 0 → start cfg s ev = Except.ok (startRun s ev)) ∧
    (∀ msg, start cfg s ev = Except.error msg →
      step cfg s Op.opStart = (s, []) ∧ step cfg s Op.opResume = (s, [])) := by
  rcases h : cfg.to' with _ | t
  · refine ⟨?_, ?_, ?_, ?_⟩
    · simp [start, h]
    · intro t ht
      exact absurd ht (by simp)
    · intro ht
      exact absurd ht (by simp)
    · intro msg hmsg
      simp [start, h] at hmsg
  · by_cases hc : t ≠ 0 ∧ cfg.from' * sign cfg.inc > t * sign cfg.inc
    · refine ⟨?_, ?_, ?_, ?_⟩
      · simp only [start, h, if_pos hc]
        exact ⟨fun _ => ⟨t, rfl, hc.1, hc.2⟩, fun _ => ⟨rangeMsg cfg t, rfl⟩⟩
      · intro t' ht' _ _
        injection ht' with ht''
        subst ht''
        simp [start, h, if_pos hc]
      · intro ht
        injection ht with ht'
        exact absurd ht' hc.1
      · intro msg _
        constructor <;>
          simp [step, resume, start, h, if_pos hc, Except.toOption]
    · refine ⟨?_, ?_, ?_, ?_⟩
      · simp only [start, h, if_neg hc]
        constructor
        · rintro ⟨msg, hmsg⟩; exact absurd hmsg (by simp)
        · rintro ⟨t', ht', h0, hgt⟩
          injection ht' with ht''
          subst ht''
          exact absurd ⟨h0, hgt⟩ hc
      · intro t' ht' h0 hgt
        injection ht' with ht''
        subst ht''
        exact absurd ⟨h0, hgt⟩ hc
      · intro _
        simp [start, h, if_neg hc]
      · intro msg hmsg
        simp [start, h, if_neg hc] at hmsg

/-- Witness for C2: the spec's own example `start(1000, 100, -100)`
raises with the exact message, and the state is untouched. -/
theorem start_invalid_range_witness :
    start ⟨1000, 100, some (-100)⟩ ⟨1000, false, false⟩ StartEv.start =
      Except.error "Invalid timer range [1000, -100] on inc 100." ∧
    step ⟨1000, 100, some (-100)⟩ ⟨1000, false, false⟩ Op.opStart =
      (⟨1000, false, false⟩, []) := by
  have h2 := (start_invalid_range_spec ⟨1000, 100, some (-100)⟩ ⟨1000, false, false⟩
    StartEv.start).2.1 (-100) rfl (by decide) (by decide)
  have h4 := (start_invalid_range_spec ⟨1000, 100, some (-100)⟩ ⟨1000, false, false⟩
    StartEv.start).2.2.2 _ h2
  exact ⟨h2, h4.1⟩

/-- C8: `start()` on an already-Running timer with a valid configuration
changes nothing: same state (so no new scheduler registration) and no
event emitted. -/
theorem start_running_noop (cfg : Config) (s : TimerState) (ev : StartEv)
    (hrun : s.running = true)
    (hvalid : ∀ t : Int, cfg.to' = some t → t ≠ 0 →
      ¬ cfg.from' * sign cfg.inc > t * sign cfg.inc) :
    start cfg s ev = Except.ok (s, []) := by
  rcases h : cfg.to' with _ | t
  · simp [start, h, startRun, hrun]
  · have hc : ¬ (t ≠ 0 ∧ cfg.from' * sign cfg.inc > t * sign cfg.inc) := by
      rintro ⟨h0, hgt⟩
      exact hvalid t h h0 hgt
    simp [start, h, if_neg hc, startRun, hrun]

/-- Witness for C8: starting an already-running count-up timer. -/
theorem start_running_noop_witness :
    start ⟨0, 100, some 500⟩ ⟨200, true, true⟩ StartEv.start =
      Except.ok (⟨200, true, true⟩, []) :=
  start_running_noop ⟨0, 100, some 500⟩ ⟨200, true, true⟩ StartEv.start rfl
    (by intro t ht h0; injection ht with ht'; subst ht'; decide)

/-- C9: with `inc < 0` and a defined negative target, a Running timer
sitting at `elapsed = 0` never auto-finishes: every number of further
ticks leaves the state unchanged and emits exactly one `update` with
payload 0 per tick (never a `finish`). -/
theorem countdown_never_finishes (cfg : Config) (t : Int) (s : TimerState)
    (hinc : cfg.inc < 0) (ht : cfg.to' = some t) (htneg : t < 0)
    (hrun : s.running = true) (he : s.elapsed = 0) :
    ∀ n : Nat, ticks cfg n s = (s, List.replicate n (Ev.update, 0)) := by
  obtain ⟨e, r, sc⟩ := s
  simp only at hrun he
  subst hrun he
  have hcl : clamp0 cfg.inc = 0 := by
    unfold clamp0
    rw [if_pos (by omega)]
  have hstep : update cfg ⟨0, true, sc⟩ = (⟨0, true, sc⟩, [(Ev.update, 0)]) := by
    simp [update, ht, hcl]
    intro hcond
    exact absurd hcond (by rw [sign_of_neg hinc]; omega)
  intro n
  induction n with
  | zero => simp [ticks]
  | succ n ih => simp [ticks, hstep, ih, List.replicate_succ]

/-- Witness for C9: three ticks of a stuck countdown toward `-3`. -/
theorem countdown_never_finishes_witness :
    ticks ⟨5, -100, some (-3)⟩ 3 ⟨0, true, true⟩ =
      (⟨0, true, true⟩, List.replicate 3 (Ev.update, 0)) :=
  countdown_never_finishes ⟨5, -100, some (-3)⟩ (-3) ⟨0, true, true⟩
    (by decide) rfl (by decide) rfl rfl 3

/-- C10: with `inc = 0` and a defined target, `start` never raises (the
validation comparison is `0 > 0`), and any tick while Running
immediately clamps `elapsed` to `to`, stops, and emits `finish` with
payload `to`, regardless of the current `elapsed`. -/
theorem inc_zero_behavior (cfg : Config) (t : Int) (h0 : cfg.inc = 0)
    (ht : cfg.to' = some t) :
    (∀ (s : TimerState) (ev : StartEv), start cfg s ev = Except.ok (startRun s ev)) ∧
    (∀ s : TimerState, s.running = true →
      update cfg s = (⟨t, false, false⟩, [(Ev.finish, t)])) := by
  have hsign : sign cfg.inc = 0 := sign_of_zero h0
  constructor
  · intro s ev
    simp [start, ht, hsign]
  · intro s hrun
    simp [update, hrun, ht, hsign, stop, StopEv.toEv]

/-- Witness for C10: one tick of an `inc = 0` timer jumps to its target. -/
theorem inc_zero_behavior_witness :
    update ⟨5, 0, some 77⟩ ⟨5, true, true⟩ = (⟨77, false, false⟩, [(Ev.finish, 77)]) :=
  (inc_zero_behavior ⟨5, 0, some 77⟩ 77 rfl rfl).2 ⟨5, true, true⟩ rfl

/-- Counterexample to C3 as stated: the claim quantifies over every
timer, but `timer(-5, 100)` is constructed (and hence reachable) with
`elapsed = -5 < 0`. -/
theorem elapsed_nonneg_counterexample :
    Reachable ⟨-5, 100, none⟩ (initState ⟨-5, 100, none⟩) ∧
    (initState ⟨-5, 100, none⟩).elapsed < 0 :=
  ⟨Reachable.init, by decide⟩

/-- C3 (amended): for timers whose `from` and (when defined) `to` are
non-negative, `elapsed` is non-negative in every reachable state —
initial state included — and so is the payload of every event any
operation emits from such a state. -/
theorem elapsed_nonneg_amended (cfg : Config) (hf : 0 ≤ cfg.from')
    (hto : ∀ t : Int, cfg.to' = some t → 0 ≤ t)
    (s : TimerState) (hs : Reachable cfg s) :
    0 ≤ s.elapsed ∧ ∀ (op : Op), ∀ p ∈ (step cfg s op).2, 0 ≤ p.2 := by
  have main : 0 ≤ s.elapsed := by
    induction hs with
    | init => exact hf
    | next s' op _ ih => exact (step_nonneg cfg hto s' ih op).1
  exact ⟨main, fun op => (step_nonneg cfg hto s main op).2⟩

/-- Witness for C3 (amended) on the spec's countdown configuration. -/
theorem elapsed_nonneg_witness :
    0 ≤ (initState ⟨500, -100, some 0⟩).elapsed :=
  (elapsed_nonneg_amended ⟨500, -100, some 0⟩ (by decide)
    (by intro t h; injection h with h'; omega) (initState ⟨500, -100, some 0⟩)
    Reachable.init).1

/-- Counterexample to C4 as stated: `reset()` is a public operation, yet
on `timer(500, -100, 100)` it drives `elapsed` to `0`, outside
`[min(from, to), max(from, to)] = [100, 500]`. -/
theorem elapsed_interval_counterexample :
    Reachable ⟨500, -100, some 100⟩
      (step ⟨500, -100, some 100⟩ (initState ⟨500, -100, some 100⟩) Op.opReset).1 ∧
    ¬ min (500 : Int) 100 ≤
      (step ⟨500, -100, some 100⟩ (initState ⟨500, -100, some 100⟩) Op.opReset).1.elapsed :=
  ⟨Reachable.next (initState ⟨500, -100, some 100⟩) Op.opReset Reachable.init,
    by decide⟩

/-- C4 (amended): for timers with `from ≥ 0` and a defined target, every
state reachable by public operations other than `reset()` (ticks
included) keeps `elapsed` within `[min(from, to), max(from, to)]`. -/
theorem elapsed_interval_amended (cfg : Config) (t : Int) (hf : 0 ≤ cfg.from')
    (ht : cfg.to' = some t) (s : TimerState) (hs : ReachableNR cfg s) :
    min cfg.from' t ≤ s.elapsed ∧ s.elapsed ≤ max cfg.from' t := by
  induction hs with
  | init => exact ⟨min_le_left _ _, le_max_left _ _⟩
  | next s' op hop _ ih => exact step_interval cfg t hf ht s' ih.1 ih.2 op hop

/-- Witness for C4 (amended) at the initial state of `timer(500, -100, 100)`. -/
theorem elapsed_interval_witness :
    min (500 : Int) 100 ≤ (initState ⟨500, -100, some 100⟩).elapsed ∧
    (initState ⟨500, -100, some 100⟩).elapsed ≤ max (500 : Int) 100 :=
  elapsed_interval_amended ⟨500, -100, some 100⟩ 100 (by decide) rfl
    (initState ⟨500, -100, some 100⟩) ReachableNR.init

end MiniTimer
